import Mathlib

/-!
# Shallow embedding of DomainHunter (`src/main.py`)

DomainHunter is a subdomain scanner: it combines a wordlist with a base
domain into candidate names, resolves each candidate over DNS with bounded
concurrency, collects the successful resolutions, reports progress, and
optionally writes the collected results to an output file.

The embedding below translates the Python classes `DNSResolver`,
`SubdomainScanner`, `WordlistLoader` and `ScannerApp` into pure Lean
functions.  Effects of the outside world are passed in explicitly:

* `env : Nat → RawResult` — what the DNS layer answers for the candidate at
  each position of the generated candidate list (success with an address
  list, an `aiodns.error.DNSError`, or any other exception);
* `dur : Nat → Nat` — the elapsed wall-clock time of each resolution, in
  centiseconds (hundredths of a second), as measured by the two
  `time.time()` calls around the lookup;
* `sched : Nat → List (Nat × String) → List (Nat × String)` — the
  completion order of the concurrently running resolutions of each batch
  (indexed by the batch's start offset); faithfulness requires only that it
  permutes the batch;
* `interruptAfter : Option Nat` — if `some k`, a `KeyboardInterrupt` is
  delivered after exactly `k` resolutions have completed (no interrupt when
  `k` is at least the number of candidates);
* `writeOk : Bool` — whether writing the output file succeeds or raises
  `IOError`.

Console printing (`rich`) and the progress-bar rendering are pure display
and are not modelled; the progress counter itself (`progress.update(task_id,
advance=1)`) is modelled as the `progressCompleted` field of the scan state.
-/

namespace DomainHunter

/-- Behaviour of the underlying `aiodns` lookup
`await self.resolver.gethostbyname(subdomain, socket.AF_UNSPEC)` for one
call: it either returns a result object carrying `addresses`, raises
`aiodns.error.DNSError`, or raises some other exception with a message. -/
inductive RawResult where
  | success (addresses : List String)
  | dnsError
  | otherError (msg : String)
deriving DecidableEq, Repr

/-- The exception channel of the underlying lookup. -/
inductive DNSException where
  | dns
  | other (msg : String)
deriving DecidableEq, Repr

/-- Models `self.resolver.gethostbyname(subdomain, socket.AF_UNSPEC)`: returns the
address list or raises. -/
def gethostbyname : RawResult → Except DNSException (List String)
  | .success a => .ok a
  | .dnsError => .error .dns
  | .otherError m => .error (.other m)

/-- Embedding of `DNSResolver.resolve` (src/main.py lines 20–28).  The `try` body awaits
`gethostbyname` and returns `result.addresses`; `except
aiodns.error.DNSError` returns `[]` silently; `except Exception as e` logs
`f"Error resolving {subdomain}: {e}"` via `logging.error` and returns `[]`.
The error log (second component) models the `logging` side channel. -/
def DNSResolver.resolve (raw : RawResult) (subdomain : String)
    (log : List String) : List String × List String :=
  match gethostbyname raw with
  | .ok addrs => (addrs, log)
  | .error .dns => ([], log)
  | .error (.other m) =>
      ([], log ++ ["Error resolving " ++ subdomain ++ ": " ++ m])

/-- The address list `DNSResolver.resolve` produces for a given raw DNS
answer (it does not depend on the candidate name or on the log). -/
def addrsOf : RawResult → List String
  | .success a => a
  | .dnsError => []
  | .otherError _ => []

/-- Mutable state of a `SubdomainScanner` run: `self.results`, the progress
counter of the `rich` task, and the `logging.error` side channel. -/
structure ScanState where
  results : List String
  progressCompleted : Nat
  errorLog : List String
deriving DecidableEq, Repr

/-- The scanner's state before any resolution: `self.results = []`,
progress at `0`, nothing logged. -/
def initState : ScanState := { results := [], progressCompleted := 0, errorLog := [] }

/-- Python's `f"{duration:.2f}"` for a duration given in centiseconds:
the integer part, a dot, and exactly two fractional digits. -/
def fmt2 (centis : Nat) : String :=
  let frac := centis % 100
  toString (centis / 100) ++ "." ++
    (if frac < 10 then "0" ++ toString frac else toString frac)

/-- The line `f"{subdomain} -> {', '.join(resolved_ips)} {duration:.2f}"`
appended to `self.results` for a successful resolution (line 50). -/
def resultLine (subdomain : String) (ips : List String) (centis : Nat) : String :=
  subdomain ++ " -> " ++ String.intercalate ", " ips ++ " " ++ fmt2 centis

/-- Embedding of `SubdomainScanner.resolve_subdomain` (lines 43–51) for the candidate at
position `p.1` with name `p.2`: resolve, append a formatted line to
`self.results` if the address list is non-empty (Python truthiness of the
list), then advance the progress counter by one unconditionally. -/
def SubdomainScanner.resolve_subdomain (env : Nat → RawResult) (dur : Nat → Nat)
    (p : Nat × String) (st : ScanState) : ScanState :=
  let r := DNSResolver.resolve (env p.1) p.2 st.errorLog
  { results :=
      if r.1.isEmpty then st.results
      else st.results ++ [resultLine p.2 r.1 (dur p.1)],
    progressCompleted := st.progressCompleted + 1,
    errorLog := r.2 }

/-- Embedding of `SubdomainScanner.generate_subdomains` (lines 40–41):
`[f"{word}.{self.domain}" for word in self.wordlist if word]` — empty
(falsy) words are skipped. -/
def SubdomainScanner.generate_subdomains (domain : String) (wordlist : List String) :
    List String :=
  (wordlist.filter (fun w => w ≠ "")).map (fun w => w ++ "." ++ domain)

/-- Python's `range(0, stop, step)` for an `int` step: raises `ValueError`
when `step == 0`; for a negative step and a non-negative `stop` the range is
empty; for a positive step it is `0, step, 2*step, …` below `stop`, i.e.
`⌈stop/step⌉` values. -/
def pyRange (stop : Nat) (step : Int) : Except String (List Nat) :=
  if step = 0 then .error "range() arg 3 must not be zero"
  else if 0 < step then
    .ok (List.range' 0 ((stop + (step.toNat - 1)) / step.toNat) step.toNat)
  else .ok []

/-- The slice `subdomains[i:i+c]` of line 63, with each candidate paired
with its position in the candidate list (the position indexes `env` and
`dur`). -/
def batchAt (subs : List String) (c : Nat) (i : Nat) : List (Nat × String) :=
  ((subs.enum).drop i).take c

/-- The batch start offsets `range(0, len(subdomains), c)` of line 62, for a
positive concurrency `c`. -/
def groupStarts (L c : Nat) : List Nat :=
  List.range' 0 ((L + (c - 1)) / c) c

/-- The consecutive batches the scan loop processes, as position/name
pairs. -/
def scanBatches (subs : List String) (c : Nat) : List (List (Nat × String)) :=
  (groupStarts subs.length c).map (batchAt subs c)

/-- Folding `resolve_subdomain` over a list of candidates in the order
their resolutions complete. -/
def scanLoop (env : Nat → RawResult) (dur : Nat → Nat)
    (order : List (Nat × String)) (st : ScanState) : ScanState :=
  order.foldl (fun st p => SubdomainScanner.resolve_subdomain env dur p st) st

/-- The overall order in which the run's resolutions complete: the batches
in loop order, each reordered by the completion schedule `sched`. -/
def completionOrder (subs : List String) (c : Nat)
    (sched : Nat → List (Nat × String) → List (Nat × String)) :
    List (Nat × String) :=
  ((groupStarts subs.length c).map (fun i => sched i (batchAt subs c i))).flatten

/-- Embedding of `SubdomainScanner.scan` (lines 53–65) without interruption: generate the
candidates, then `for i in range(0, len(subdomains), self.concurrency)`
gather the batch `subdomains[i:i+c]`; each batch's resolutions complete in
the order given by `sched` before the next batch starts.  A zero
concurrency propagates the `ValueError` raised by `range`. -/
def SubdomainScanner.scan (domain : String) (wordlist : List String)
    (concurrency : Int) (env : Nat → RawResult) (dur : Nat → Nat)
    (sched : Nat → List (Nat × String) → List (Nat × String)) :
    Except String ScanState :=
  let subdomains := SubdomainScanner.generate_subdomains domain wordlist
  (pyRange subdomains.length concurrency).map (fun starts =>
    starts.foldl (fun st i =>
      (sched i (batchAt subdomains concurrency.toNat i)).foldl
        (fun st p => SubdomainScanner.resolve_subdomain env dur p st) st)
      initState)

/-- Embedding of `SubdomainScanner.save_results` (lines 69–75): writes one
newline-terminated line per collected result, in order; on `IOError`
(modelled by `writeOk = false`) nothing is written and the failure is
logged.  Returns (file contents written, logged error). -/
def SubdomainScanner.save_results (results : List String) (writeOk : Bool) :
    Option (List String) × Option String :=
  if writeOk then (some (results.map (fun r => r ++ "\n")), none)
  else (none, some "Error saving results")

/-- Python's `str.strip()`: remove leading and trailing whitespace
characters. -/
def pyStrip (s : String) : String :=
  ⟨((s.data.dropWhile Char.isWhitespace).reverse.dropWhile
      Char.isWhitespace).reverse⟩

/-- Embedding of `WordlistLoader.load` (lines 78–89): strips each line and keeps the
non-blank ones; `FileNotFoundError` and `IOError` both log and return the
empty list (the read error is the `Except.error` case of the contents). -/
def WordlistLoader.load (fileContents : Except String (List String)) :
    List String :=
  match fileContents with
  | .ok lines =>
      lines.filterMap (fun l => if pyStrip l = "" then none else some (pyStrip l))
  | .error _ => []

/-- Python truthiness of `self.output_file : Optional[str]`: `None` and the
empty string are falsy. -/
def truthyOpt : Option String → Bool
  | none => false
  | some s => s ≠ ""

/-- Observable outcome of one `ScannerApp.run`: whether it aborted on an
empty wordlist, whether it was interrupted, what `logging.error` recorded at
the app level, the scanner state reached, and the output-file contents (if a
file was written). -/
structure AppOutcome where
  aborted : Bool
  interrupted : Bool
  loggedError : Option String
  finalState : Option ScanState
  outputFile : Option (List String)
deriving DecidableEq, Repr

/-- The tail of `scan` (lines 66–67) together with normal completion of
`ScannerApp.run`: save the results when the output path is truthy. -/
def finishScan (st : ScanState) (output_file : Option String) (writeOk : Bool) :
    AppOutcome :=
  if truthyOpt output_file then
    let saved := SubdomainScanner.save_results st.results writeOk
    { aborted := false, interrupted := false, loggedError := saved.2,
      finalState := some st, outputFile := saved.1 }
  else
    { aborted := false, interrupted := false, loggedError := none,
      finalState := some st, outputFile := none }

/-- Embedding of `ScannerApp.run` (lines 92–106): load the wordlist, abort with a
user-visible message when it is empty, otherwise scan.  A
`KeyboardInterrupt` delivered after `k` completed resolutions (with more
remaining) is caught and reported, leaving the partial state unflushed; any
other exception (e.g. the `ValueError` from a zero concurrency) is caught by
`except Exception` and logged. -/
def ScannerApp.run (domain : String) (fileContents : Except String (List String))
    (concurrency : Int) (output_file : Option String) (writeOk : Bool)
    (env : Nat → RawResult) (dur : Nat → Nat)
    (sched : Nat → List (Nat × String) → List (Nat × String))
    (interruptAfter : Option Nat) : AppOutcome :=
  let wordlist := WordlistLoader.load fileContents
  if wordlist.isEmpty then
    { aborted := true, interrupted := false, loggedError := none,
      finalState := none, outputFile := none }
  else
    let subs := SubdomainScanner.generate_subdomains domain wordlist
    match pyRange subs.length concurrency with
    | .error m =>
        { aborted := false, interrupted := false,
          loggedError := some ("Unexpected error: " ++ m),
          finalState := some initState, outputFile := none }
    | .ok _ =>
        let order := completionOrder subs concurrency.toNat sched
        match interruptAfter with
        | some k =>
            if k < order.length then
              { aborted := false, interrupted := true, loggedError := none,
                finalState := some (scanLoop env dur (order.take k) initState),
                outputFile := none }
            else finishScan (scanLoop env dur order initState) output_file writeOk
        | none => finishScan (scanLoop env dur order initState) output_file writeOk

/-! ## Basic lemmas about the embedding -/

/-- The function `resolve` always returns the raw answer's address list, independently of
the candidate name and of the log. -/
lemma resolve_fst (raw : RawResult) (subdomain : String) (log : List String) :
    (DNSResolver.resolve raw subdomain log).1 = addrsOf raw := by
  cases raw <;> rfl

/-- Each resolution advances the progress counter by exactly one. -/
lemma resolve_subdomain_progress (env : Nat → RawResult) (dur : Nat → Nat)
    (p : Nat × String) (st : ScanState) :
    (SubdomainScanner.resolve_subdomain env dur p st).progressCompleted
      = st.progressCompleted + 1 := rfl

/-- The line recorded for the candidate at position `p`, when its address
list is non-empty; `none` for a failed resolution. -/
def successLine (env : Nat → RawResult) (dur : Nat → Nat) (p : Nat × String) :
    Option String :=
  if (addrsOf (env p.1)).isEmpty then none
  else some (resultLine p.2 (addrsOf (env p.1)) (dur p.1))

/-- Running the loop over any completion order advances the progress
counter by exactly the number of candidates processed. -/
lemma scanLoop_progress (env : Nat → RawResult) (dur : Nat → Nat) :
    ∀ (order : List (Nat × String)) (st : ScanState),
      (scanLoop env dur order st).progressCompleted
        = st.progressCompleted + order.length := by
  intro order
  induction order with
  | nil => intro st; rfl
  | cons p rest ih =>
      intro st
      show (scanLoop env dur rest (SubdomainScanner.resolve_subdomain env dur p st)).progressCompleted
        = st.progressCompleted + (p :: rest).length
      rw [ih, resolve_subdomain_progress, List.length_cons]
      omega

/-- Running the loop appends exactly one formatted line per successful
resolution, in completion order, after the lines already collected. -/
lemma scanLoop_results (env : Nat → RawResult) (dur : Nat → Nat) :
    ∀ (order : List (Nat × String)) (st : ScanState),
      (scanLoop env dur order st).results
        = st.results ++ order.filterMap (successLine env dur) := by
  intro order
  induction order with
  | nil => intro st; simp [scanLoop]
  | cons p rest ih =>
      intro st
      show (scanLoop env dur rest (SubdomainScanner.resolve_subdomain env dur p st)).results
        = st.results ++ (p :: rest).filterMap (successLine env dur)
      rw [ih, List.filterMap_cons]
      simp only [SubdomainScanner.resolve_subdomain, resolve_fst, successLine]
      by_cases h : (addrsOf (env p.1)).isEmpty
      · simp [h]
      · simp [h]

/-! ## The batch structure of the scan loop -/

/-- Ceiling-division recurrence: removing one full batch of `c` candidates
removes exactly one group. -/
lemma ceilDiv_succ {c L : Nat} (hc : 0 < c) (hL : 0 < L) :
    (L + (c - 1)) / c = (L - c + (c - 1)) / c + 1 := by
  have hcle : c ≤ L + (c - 1) := by omega
  rw [Nat.div_eq_sub_div hc hcle]
  rcases le_or_lt c L with h | h
  · have heq : L + (c - 1) - c = L - c + (c - 1) := by omega
    rw [heq]
  · have h1 : L + (c - 1) - c = L - 1 := by omega
    have h2 : L - c = 0 := by omega
    rw [h1, h2, Nat.zero_add, Nat.div_eq_of_lt (by omega), Nat.div_eq_of_lt (by omega)]

/-- Mapping over a step-`c` range shifted by `c` is mapping the shifted
function over the unshifted range. -/
lemma range'_map_shift {β : Type*} (c : Nat) (f : Nat → β) :
    ∀ (k s : Nat), (List.range' (s + c) k c).map f
      = (List.range' s k c).map (fun i => f (i + c)) := by
  intro k
  induction k with
  | zero => intro s; rfl
  | succ k ih =>
      intro s
      rw [List.range'_succ, List.range'_succ, List.map_cons, List.map_cons, ih (s + c)]

/-- The consecutive slices `l[i:i+c]` for `i = 0, c, 2c, …` concatenate
back to `l` (bounded-recursion form). -/
lemma chunk_flatten_aux {α : Type*} (c : Nat) (hc : 0 < c) :
    ∀ (n : Nat) (l : List α), l.length ≤ n →
      ((groupStarts l.length c).map (fun i => (l.drop i).take c)).flatten = l := by
  have hnil : ∀ (l : List α), l = [] →
      ((groupStarts l.length c).map (fun i => (l.drop i).take c)).flatten = l := by
    rintro l rfl
    simp [groupStarts, Nat.div_eq_of_lt (Nat.sub_lt hc Nat.one_pos)]
  intro n
  induction n with
  | zero =>
      intro l hl
      exact hnil l (List.length_eq_zero.mp (Nat.le_zero.mp hl))
  | succ n ih =>
      intro l hl
      cases l with
      | nil => exact hnil [] rfl
      | cons a t =>
          have hpos : 0 < (a :: t).length := by simp
          have hk := ceilDiv_succ (L := (a :: t).length) hc hpos
          have hdrop : ((a :: t).drop c).length = (a :: t).length - c := by
            simp [List.length_drop]
          have hshift : (List.range' c (((a :: t).length - c + (c - 1)) / c) c).map
                (fun i => ((a :: t).drop i).take c)
              = (List.range' 0 (((a :: t).length - c + (c - 1)) / c) c).map
                (fun i => ((a :: t).drop (i + c)).take c) := by
            have := range'_map_shift c (fun i => ((a :: t).drop i).take c)
              (((a :: t).length - c + (c - 1)) / c) 0
            simpa using this
          have hdd : ∀ i : Nat, (a :: t).drop (i + c) = ((a :: t).drop c).drop i := by
            intro i
            rw [List.drop_drop, Nat.add_comm]
          have hrec : ((groupStarts ((a :: t).drop c).length c).map
                (fun i => (((a :: t).drop c).drop i).take c)).flatten = (a :: t).drop c := by
            apply ih
            have : 0 < (a :: t).length := hpos
            omega
          unfold groupStarts at hrec ⊢
          rw [hk, List.range'_succ, List.map_cons, List.flatten_cons, Nat.zero_add, hshift]
          simp only [hdd]
          rw [hdrop] at hrec
          rw [hrec, List.drop_zero, List.take_append_drop]

/-- The consecutive slices `l[i:i+c]` for `i = 0, c, 2c, …` concatenate
back to `l`. -/
lemma chunk_flatten {α : Type*} (c : Nat) (hc : 0 < c) (l : List α) :
    ((groupStarts l.length c).map (fun i => (l.drop i).take c)).flatten = l :=
  chunk_flatten_aux c hc l.length l le_rfl

/-- The batches of a scan concatenate, in order, to the full enumerated
candidate list. -/
lemma scanBatches_flatten (subs : List String) (c : Nat) (hc : 0 < c) :
    (scanBatches subs c).flatten = subs.enum := by
  unfold scanBatches batchAt
  have := chunk_flatten c hc subs.enum
  rwa [List.enum_length] at this

/-- Flattening pointwise-permuted lists yields permuted flattenings. -/
lemma flatten_map_perm {β : Type*} (f g : Nat → List β) :
    ∀ (xs : List Nat), (∀ i ∈ xs, (f i).Perm (g i)) →
      ((xs.map f).flatten).Perm ((xs.map g).flatten) := by
  intro xs
  induction xs with
  | nil => intro _; rfl
  | cons x xs ih =>
      intro h
      rw [List.map_cons, List.map_cons, List.flatten_cons, List.flatten_cons]
      exact (h x (List.mem_cons_self x xs)).append
        (ih fun i hi => h i (List.mem_cons_of_mem _ hi))

/-- Whatever the per-batch completion schedule, the overall completion
order is a permutation of the enumerated candidate list. -/
lemma completionOrder_perm (subs : List String) (c : Nat)
    (sched : Nat → List (Nat × String) → List (Nat × String)) (hc : 0 < c)
    (hsched : ∀ i b, (sched i b).Perm b) :
    (completionOrder subs c sched).Perm subs.enum := by
  unfold completionOrder
  have h1 : (((groupStarts subs.length c).map
        (fun i => sched i (batchAt subs c i))).flatten).Perm
      (((groupStarts subs.length c).map (batchAt subs c)).flatten) :=
    flatten_map_perm _ _ _ (fun i _ => hsched i (batchAt subs c i))
  have h2 := scanBatches_flatten subs c hc
  unfold scanBatches at h2
  exact h2 ▸ h1

/-- For a positive concurrency, `scan` succeeds and is the loop over the
completion order of its batches. -/
lemma scan_eq_scanLoop (domain : String) (wordlist : List String) (c : Nat)
    (hc : 0 < c) (env : Nat → RawResult) (dur : Nat → Nat)
    (sched : Nat → List (Nat × String) → List (Nat × String)) :
    SubdomainScanner.scan domain wordlist (c : Int) env dur sched
      = .ok (scanLoop env dur
          (completionOrder (SubdomainScanner.generate_subdomains domain wordlist) c sched)
          initState) := by
  unfold SubdomainScanner.scan pyRange
  have hne : (c : Int) ≠ 0 := by exact_mod_cast hc.ne'
  have hpos : (0 : Int) < (c : Int) := by exact_mod_cast hc
  simp only [if_neg hne, if_pos hpos, Except.map, Int.toNat_natCast]
  congr 1
  unfold completionOrder scanLoop groupStarts
  rw [List.foldl_flatten, List.foldl_map]

/-! ## Claims -/

/-- C3: `DNSResolver.resolve` never propagates a raised error: its result
type has no error channel, and for every possible raw answer it returns
normally — the address list on success, the empty list on an expected DNS
error (with the side channel untouched), and the empty list with one logged
message on any other error. -/
theorem claim_C3 (subdomain : String) (log : List String) :
    (∀ a, DNSResolver.resolve (.success a) subdomain log = (a, log)) ∧
    DNSResolver.resolve .dnsError subdomain log = ([], log) ∧
    (∀ m, DNSResolver.resolve (.otherError m) subdomain log
        = ([], log ++ ["Error resolving " ++ subdomain ++ ": " ++ m])) :=
  ⟨fun _ => rfl, rfl, fun _ => rfl⟩

/-- C7: on a wordlist of non-empty labels, `generate_subdomains` is exactly
the order-preserving map `w ↦ w.domain`: one candidate per label, no
deduplication (duplicate labels yield duplicate candidates), deterministic. -/
theorem claim_C7 (domain : String) (wordlist : List String)
    (h : ∀ w ∈ wordlist, w ≠ "") :
    SubdomainScanner.generate_subdomains domain wordlist
      = wordlist.map (fun w => w ++ "." ++ domain) := by
  unfold SubdomainScanner.generate_subdomains
  rw [List.filter_eq_self.mpr]
  intro a ha
  simpa using h a ha

/-- Witness for C7 at a concrete wordlist with a duplicate label. -/
theorem claim_C7_witness :
    (∀ w ∈ ["www", "mail", "www"], w ≠ "") ∧
    SubdomainScanner.generate_subdomains "example.com" ["www", "mail", "www"]
      = ["www", "mail", "www"].map (fun w => w ++ "." ++ "example.com") :=
  ⟨by decide, claim_C7 "example.com" ["www", "mail", "www"] (by decide)⟩

/-- C9: `generate_subdomains` filters out falsy (empty) labels, so a
wordlist containing the empty string yields strictly fewer candidates than
labels. -/
theorem claim_C9 (domain : String) (wordlist : List String)
    (h : "" ∈ wordlist) :
    SubdomainScanner.generate_subdomains domain wordlist
      = (wordlist.filter (fun w => w ≠ "")).map (fun w => w ++ "." ++ domain) ∧
    (SubdomainScanner.generate_subdomains domain wordlist).length
      < wordlist.length := by
  refine ⟨rfl, ?_⟩
  unfold SubdomainScanner.generate_subdomains
  rw [List.length_map]
  exact List.length_filter_lt_length_iff_exists.mpr ⟨"", h, by simp⟩

/-- Witness for C9 at a concrete wordlist containing an empty label. -/
theorem claim_C9_witness :
    ("" ∈ ["www", ""]) ∧
    (SubdomainScanner.generate_subdomains "example.com" ["www", ""]).length
      < (["www", ""] : List String).length :=
  ⟨by decide, (claim_C9 "example.com" ["www", ""] (by decide)).2⟩

/-- C8: whenever the loaded wordlist is empty — including an unreadable
file, which the loader surfaces as the empty list — the run aborts with the
user-visible message before any resolution (no scanner state is ever
created) and no output file is produced. -/
theorem claim_C8 (domain : String) (fileContents : Except String (List String))
    (concurrency : Int) (output_file : Option String) (writeOk : Bool)
    (env : Nat → RawResult) (dur : Nat → Nat)
    (sched : Nat → List (Nat × String) → List (Nat × String))
    (interruptAfter : Option Nat)
    (h : WordlistLoader.load fileContents = []) :
    (∀ msg, WordlistLoader.load (.error msg) = []) ∧
    ScannerApp.run domain fileContents concurrency output_file writeOk env dur
        sched interruptAfter
      = { aborted := true, interrupted := false, loggedError := none,
          finalState := none, outputFile := none } := by
  refine ⟨fun _ => rfl, ?_⟩
  simp [ScannerApp.run, h]

/-- Witness for C8: an unreadable wordlist file. -/
theorem claim_C8_witness :
    WordlistLoader.load (.error "file not found") = [] ∧
    ScannerApp.run "example.com" (.error "file not found") 50 (some "out.txt")
        true (fun _ => .success ["1.2.3.4"]) (fun _ => 0) (fun _ b => b) none
      = { aborted := true, interrupted := false, loggedError := none,
          finalState := none, outputFile := none } :=
  ⟨rfl,
    (claim_C8 "example.com" (.error "file not found") 50 (some "out.txt") true
      (fun _ => .success ["1.2.3.4"]) (fun _ => 0) (fun _ b => b) none rfl).2⟩

/-- C10: with a non-empty candidate list, concurrency `0` makes `scan`
raise the `range` step-zero `ValueError` before any resolution, and a
negative concurrency makes the batching loop run zero iterations, leaving
the initial state — whose progress counter is strictly below the total. -/
theorem claim_C10 (domain : String) (wordlist : List String)
    (env : Nat → RawResult) (dur : Nat → Nat)
    (sched : Nat → List (Nat × String) → List (Nat × String))
    (hne : SubdomainScanner.generate_subdomains domain wordlist ≠ []) :
    SubdomainScanner.scan domain wordlist 0 env dur sched
      = .error "range() arg 3 must not be zero" ∧
    (∀ c : Int, c < 0 →
      SubdomainScanner.scan domain wordlist c env dur sched = .ok initState) ∧
    initState.progressCompleted
      < (SubdomainScanner.generate_subdomains domain wordlist).length := by
  refine ⟨?_, ?_, ?_⟩
  · simp [SubdomainScanner.scan, pyRange, Except.map]
  · intro c hcneg
    have h0 : c ≠ 0 := hcneg.ne
    have h1 : ¬ (0 : Int) < c := by omega
    simp [SubdomainScanner.scan, pyRange, h0, h1, Except.map]
  · simpa [initState] using List.length_pos.mpr hne

/-- Witness for C10 at a concrete one-candidate scan. -/
theorem claim_C10_witness :
    SubdomainScanner.generate_subdomains "example.com" ["www"] ≠ [] ∧
    SubdomainScanner.scan "example.com" ["www"] 0 (fun _ => .dnsError)
        (fun _ => 0) (fun _ b => b)
      = .error "range() arg 3 must not be zero" :=
  ⟨by decide,
    (claim_C10 "example.com" ["www"] (fun _ => .dnsError) (fun _ => 0)
      (fun _ b => b) (by decide)).1⟩

/-- C1 (amended): for every candidate sequence and concurrency `N ≥ 1` the
scan partitions the candidates into exactly `⌈L/N⌉` consecutive groups in
order, each of size at most `N`, only the final group possibly smaller; when
`1 ≤ L ≤ N` there is exactly one group containing all candidates (when
`L = 0` there are zero groups); and `scan` processes exactly these groups
strictly in group order. -/
theorem claim_C1 (subs : List String) (N : Nat) (hN : 0 < N) :
    (scanBatches subs N).length = (subs.length + (N - 1)) / N ∧
    (∀ g ∈ scanBatches subs N, g.length ≤ N) ∧
    (∀ j, j + 1 < (scanBatches subs N).length →
      ((scanBatches subs N).getD j []).length = N) ∧
    (scanBatches subs N).flatten = subs.enum ∧
    (0 < subs.length → subs.length ≤ N → scanBatches subs N = [subs.enum]) ∧
    (∀ domain wordlist env dur sched,
      subs = SubdomainScanner.generate_subdomains domain wordlist →
      SubdomainScanner.scan domain wordlist (N : Int) env dur sched
        = .ok (scanLoop env dur (completionOrder subs N sched) initState)) := by
  have hlen : (scanBatches subs N).length = (subs.length + (N - 1)) / N := by
    unfold scanBatches groupStarts
    rw [List.length_map, List.length_range']
  refine ⟨hlen, ?_, ?_, scanBatches_flatten subs N hN, ?_, ?_⟩
  · intro g hg
    unfold scanBatches at hg
    obtain ⟨i, _, rfl⟩ := List.mem_map.mp hg
    unfold batchAt
    rw [List.length_take]
    exact min_le_left _ _
  · intro j hj
    have hj' : j < (groupStarts subs.length N).length := by
      unfold scanBatches at hj
      rw [List.length_map] at hj
      omega
    unfold scanBatches
    rw [List.getD_eq_getElem _ _ (by rw [List.length_map]; exact hj'),
      List.getElem_map, batchAt, List.length_take, List.length_drop,
      List.enum_length]
    have hval : (groupStarts subs.length N)[j] = N * j := by
      unfold groupStarts
      rw [List.getElem_range', Nat.zero_add]
    rw [hval]
    have hk : ((subs.length + (N - 1)) / N) * N ≤ subs.length + (N - 1) :=
      Nat.div_mul_le_self _ _
    have hjk : j + 2 ≤ (subs.length + (N - 1)) / N := by
      rw [hlen] at hj
      omega
    have hmul : N * (j + 2) ≤ N * ((subs.length + (N - 1)) / N) :=
      Nat.mul_le_mul_left N hjk
    have hexp : N * (j + 2) = N * j + 2 * N := by ring
    have hcomm : ((subs.length + (N - 1)) / N) * N
        = N * ((subs.length + (N - 1)) / N) := Nat.mul_comm _ _
    rw [hcomm] at hk
    rw [hexp] at hmul
    have : N * j + 2 * N ≤ subs.length + (N - 1) := le_trans hmul hk
    have hle : N ≤ subs.length - N * j := by omega
    exact min_eq_left hle
  · intro hL hLN
    have hk1 : (subs.length + (N - 1)) / N = 1 :=
      Nat.div_eq_of_lt_le (by omega) (by omega)
    unfold scanBatches groupStarts
    rw [hk1, List.range'_succ, List.map_cons]
    simp only [List.range']
    rw [List.map_nil, batchAt, List.drop_zero]
    rw [List.take_of_length_le (by rw [List.enum_length]; exact hLN)]
  · intro domain wordlist env dur sched heq
    subst heq
    exact scan_eq_scanLoop domain wordlist N hN env dur sched

/-- Witness for C1 at three candidates and concurrency 2. -/
theorem claim_C1_witness :
    (scanBatches (SubdomainScanner.generate_subdomains "example.com"
        ["www", "mail", "ftp"]) 2).length
      = ((SubdomainScanner.generate_subdomains "example.com"
          ["www", "mail", "ftp"]).length + (2 - 1)) / 2 :=
  (claim_C1 (SubdomainScanner.generate_subdomains "example.com"
    ["www", "mail", "ftp"]) 2 (by decide)).1

/-- C1 counterexample: with zero candidates and `N = 1 > 0 = L`, the scan
produces zero groups, not the single all-containing group the claim
asserts whenever `N` exceeds `L`. -/
theorem claim_C1_counterexample :
    (SubdomainScanner.generate_subdomains "example.com" []).length < 1 ∧
    (scanBatches (SubdomainScanner.generate_subdomains "example.com" []) 1).length
      ≠ 1 := by
  decide

/-- C4: over any completion schedule that permutes each batch, the progress
counter after `j` completed candidates is exactly `min j L` — it advances by
exactly one per candidate whatever the success/failure mix, is monotone,
never exceeds the total, and equals the total exactly when the scan
finishes. -/
theorem claim_C4 (domain : String) (wordlist : List String) (N : Nat)
    (env : Nat → RawResult) (dur : Nat → Nat)
    (sched : Nat → List (Nat × String) → List (Nat × String))
    (hN : 0 < N) (hsched : ∀ i b, (sched i b).Perm b) :
    (completionOrder (SubdomainScanner.generate_subdomains domain wordlist) N
        sched).length
      = (SubdomainScanner.generate_subdomains domain wordlist).length ∧
    (∀ j, (scanLoop env dur
        ((completionOrder (SubdomainScanner.generate_subdomains domain wordlist)
          N sched).take j) initState).progressCompleted
      = min j (SubdomainScanner.generate_subdomains domain wordlist).length) ∧
    (∀ j, j < (SubdomainScanner.generate_subdomains domain wordlist).length →
      (scanLoop env dur
          ((completionOrder (SubdomainScanner.generate_subdomains domain wordlist)
            N sched).take (j + 1)) initState).progressCompleted
        = (scanLoop env dur
            ((completionOrder (SubdomainScanner.generate_subdomains domain wordlist)
              N sched).take j) initState).progressCompleted + 1) ∧
    SubdomainScanner.scan domain wordlist (N : Int) env dur sched
      = .ok (scanLoop env dur
          (completionOrder (SubdomainScanner.generate_subdomains domain wordlist)
            N sched) initState) ∧
    (scanLoop env dur
        (completionOrder (SubdomainScanner.generate_subdomains domain wordlist)
          N sched) initState).progressCompleted
      = (SubdomainScanner.generate_subdomains domain wordlist).length := by
  have hlen : (completionOrder (SubdomainScanner.generate_subdomains domain
      wordlist) N sched).length
      = (SubdomainScanner.generate_subdomains domain wordlist).length := by
    rw [(completionOrder_perm _ N sched hN hsched).length_eq, List.enum_length]
  refine ⟨hlen, ?_, ?_, scan_eq_scanLoop domain wordlist N hN env dur sched, ?_⟩
  · intro j
    rw [scanLoop_progress, List.length_take, hlen]
    simp [initState]
  · intro j hj
    rw [scanLoop_progress, scanLoop_progress, List.length_take,
      List.length_take, hlen]
    simp only [initState, Nat.zero_add]
    omega
  · rw [scanLoop_progress, hlen]
    simp [initState]

/-- Witness for C4: two candidates, concurrency 1, a mixed
success/failure environment, identity schedule. -/
theorem claim_C4_witness :
    (scanLoop (fun i => if i = 0 then .success ["1.2.3.4"] else .dnsError)
        (fun _ => 7)
        (completionOrder (SubdomainScanner.generate_subdomains "example.com"
          ["www", "nope"]) 1 (fun _ b => b)) initState).progressCompleted
      = (SubdomainScanner.generate_subdomains "example.com"
          ["www", "nope"]).length :=
  (claim_C4 "example.com" ["www", "nope"] 1
    (fun i => if i = 0 then .success ["1.2.3.4"] else .dnsError) (fun _ => 7)
    (fun _ b => b) (by decide) (fun _ b => List.Perm.refl b)).2.2.2.2

/-- C5: after a completed scan the collected results are, up to the
unspecified completion order, exactly one formatted line per candidate whose
resolution produced a non-empty address list; no empty-address outcome ever
contributes an entry. -/
theorem claim_C5 (domain : String) (wordlist : List String) (N : Nat)
    (env : Nat → RawResult) (dur : Nat → Nat)
    (sched : Nat → List (Nat × String) → List (Nat × String))
    (hN : 0 < N) (hsched : ∀ i b, (sched i b).Perm b) :
    ∃ st, SubdomainScanner.scan domain wordlist (N : Int) env dur sched
        = .ok st ∧
      st.results.Perm
        (((SubdomainScanner.generate_subdomains domain wordlist).enum).filterMap
          (successLine env dur)) ∧
      ∀ r ∈ st.results,
        ∃ p ∈ (SubdomainScanner.generate_subdomains domain wordlist).enum,
          addrsOf (env p.1) ≠ [] ∧
          r = resultLine p.2 (addrsOf (env p.1)) (dur p.1) := by
  refine ⟨_, scan_eq_scanLoop domain wordlist N hN env dur sched, ?_, ?_⟩
  · rw [scanLoop_results]
    simp only [initState, List.nil_append]
    exact (completionOrder_perm _ N sched hN hsched).filterMap _
  · intro r hr
    rw [scanLoop_results] at hr
    simp only [initState, List.nil_append] at hr
    have hr' : r ∈ ((SubdomainScanner.generate_subdomains domain
        wordlist).enum).filterMap (successLine env dur) :=
      (((completionOrder_perm _ N sched hN hsched).filterMap
        (successLine env dur)).mem_iff).mp hr
    obtain ⟨p, hp, hline⟩ := List.mem_filterMap.mp hr'
    refine ⟨p, hp, ?_, ?_⟩
    · intro hempty
      rw [successLine, hempty] at hline
      simp at hline
    · by_cases hempty : (addrsOf (env p.1)).isEmpty
      · rw [successLine, if_pos hempty] at hline
        cases hline
      · rw [successLine, if_neg hempty] at hline
        exact (Option.some.injEq _ _ ▸ hline).symm

/-- Witness for C5: three candidates, one failing, concurrency 2. -/
theorem claim_C5_witness :
    ∃ st, SubdomainScanner.scan "example.com" ["www", "nope", "mail"] (2 : Int)
        (fun i => if i = 1 then .dnsError else .success ["1.2.3.4"])
        (fun _ => 12) (fun _ b => b)
      = .ok st ∧
      st.results.Perm
        (((SubdomainScanner.generate_subdomains "example.com"
            ["www", "nope", "mail"]).enum).filterMap
          (successLine (fun i => if i = 1 then .dnsError else .success ["1.2.3.4"])
            (fun _ => 12))) ∧
      ∀ r ∈ st.results,
        ∃ p ∈ (SubdomainScanner.generate_subdomains "example.com"
            ["www", "nope", "mail"]).enum,
          addrsOf ((fun i => if i = 1 then .dnsError
              else RawResult.success ["1.2.3.4"]) p.1) ≠ [] ∧
          r = resultLine p.2
              (addrsOf ((fun i => if i = 1 then .dnsError
                else RawResult.success ["1.2.3.4"]) p.1)) 12 :=
  claim_C5 "example.com" ["www", "nope", "mail"] 2
    (fun i => if i = 1 then .dnsError else .success ["1.2.3.4"]) (fun _ => 12)
    (fun _ b => b) (by decide) (fun _ b => List.Perm.refl b)

/-- C6: on a completed run with an output path supplied and a writable
file, the output is exactly one newline-terminated line per successful
outcome — `<candidate> -> <comma-separated addresses> <elapsed to 2
decimals>` (see `resultLine`/`successLine`) — in the order the collector
holds them, i.e. completion order. -/
theorem claim_C6 (domain : String) (fileContents : Except String (List String))
    (N : Nat) (path : String) (env : Nat → RawResult) (dur : Nat → Nat)
    (sched : Nat → List (Nat × String) → List (Nat × String))
    (hN : 0 < N) (hwl : WordlistLoader.load fileContents ≠ [])
    (hpath : path ≠ "") :
    ScannerApp.run domain fileContents (N : Int) (some path) true env dur
        sched none
      = { aborted := false, interrupted := false, loggedError := none,
          finalState := some (scanLoop env dur
            (completionOrder (SubdomainScanner.generate_subdomains domain
              (WordlistLoader.load fileContents)) N sched) initState),
          outputFile := some
            (((completionOrder (SubdomainScanner.generate_subdomains domain
                (WordlistLoader.load fileContents)) N sched).filterMap
              (successLine env dur)).map (fun r => r ++ "\n")) } := by
  have hempty : (WordlistLoader.load fileContents).isEmpty = false := by
    cases h : WordlistLoader.load fileContents with
    | nil => exact absurd h hwl
    | cons a t => rfl
  have hne : (N : Int) ≠ 0 := by exact_mod_cast hN.ne'
  have hpos : (0 : Int) < (N : Int) := by exact_mod_cast hN
  have hpy : pyRange (SubdomainScanner.generate_subdomains domain
      (WordlistLoader.load fileContents)).length (N : Int)
      = .ok (groupStarts (SubdomainScanner.generate_subdomains domain
          (WordlistLoader.load fileContents)).length N) := by
    unfold pyRange groupStarts
    rw [if_neg hne, if_pos hpos, Int.toNat_natCast]
  have htr : truthyOpt (some path) = true := by simp [truthyOpt, hpath]
  simp only [ScannerApp.run, hempty, Bool.false_eq_true, if_false, hpy,
    Int.toNat_natCast, finishScan, htr, if_true,
    SubdomainScanner.save_results]
  rw [scanLoop_results]
  simp [initState]

/-- Witness for C6: two candidates, one failing, written to a file. -/
theorem claim_C6_witness :
    ScannerApp.run "example.com" (.ok ["www", "nope"]) (50 : Int)
        (some "out.txt") true
        (fun i => if i = 0 then .success ["1.2.3.4", "::1"] else .dnsError)
        (fun _ => 123) (fun _ b => b) none
      = { aborted := false, interrupted := false, loggedError := none,
          finalState := some (scanLoop
            (fun i => if i = 0 then .success ["1.2.3.4", "::1"] else .dnsError)
            (fun _ => 123)
            (completionOrder (SubdomainScanner.generate_subdomains "example.com"
              (WordlistLoader.load (.ok ["www", "nope"]))) 50 (fun _ b => b))
            initState),
          outputFile := some
            (((completionOrder (SubdomainScanner.generate_subdomains "example.com"
                (WordlistLoader.load (.ok ["www", "nope"]))) 50
                (fun _ b => b)).filterMap
              (successLine
                (fun i => if i = 0 then .success ["1.2.3.4", "::1"] else .dnsError)
                (fun _ => 123))).map (fun r => r ++ "\n")) } :=
  claim_C6 "example.com" (.ok ["www", "nope"]) 50 "out.txt"
    (fun i => if i = 0 then .success ["1.2.3.4", "::1"] else .dnsError)
    (fun _ => 123) (fun _ b => b) (by decide) (by decide) (by decide)

/-- C2 counterexample: a run with an output path supplied, interrupted
after one of two candidates has resolved successfully, collects one result
but writes no output file — the partial results are not flushed. -/
theorem claim_C2_counterexample :
    (ScannerApp.run "example.com" (.ok ["www", "mail"]) 50 (some "out.txt")
        true (fun _ => .success ["1.2.3.4"]) (fun _ => 0) (fun _ b => b)
        (some 1)).outputFile = none ∧
    (ScannerApp.run "example.com" (.ok ["www", "mail"]) 50 (some "out.txt")
        true (fun _ => .success ["1.2.3.4"]) (fun _ => 0) (fun _ b => b)
        (some 1)).finalState
      = some { results := ["www.example.com -> 1.2.3.4 0.00"],
               progressCompleted := 1, errorLog := [] } := by
  constructor
  · rfl
  · rfl

/-- C2 (amended): a `KeyboardInterrupt` delivered while candidates remain
stops the run at exactly the results collected so far, starts nothing
further, is reported as an interruption rather than logged as an error —
but the collected results are NOT flushed: no output file is written even
when an output path was supplied. -/
theorem claim_C2 (domain : String) (fileContents : Except String (List String))
    (N : Nat) (output_file : Option String) (writeOk : Bool)
    (env : Nat → RawResult) (dur : Nat → Nat)
    (sched : Nat → List (Nat × String) → List (Nat × String)) (k : Nat)
    (hN : 0 < N) (hwl : WordlistLoader.load fileContents ≠ [])
    (hk : k < (completionOrder (SubdomainScanner.generate_subdomains domain
        (WordlistLoader.load fileContents)) N sched).length) :
    ScannerApp.run domain fileContents (N : Int) output_file writeOk env dur
        sched (some k)
      = { aborted := false, interrupted := true, loggedError := none,
          finalState := some (scanLoop env dur
            ((completionOrder (SubdomainScanner.generate_subdomains domain
              (WordlistLoader.load fileContents)) N sched).take k) initState),
          outputFile := none } := by
  have hempty : (WordlistLoader.load fileContents).isEmpty = false := by
    cases h : WordlistLoader.load fileContents with
    | nil => exact absurd h hwl
    | cons a t => rfl
  have hne : (N : Int) ≠ 0 := by exact_mod_cast hN.ne'
  have hpos : (0 : Int) < (N : Int) := by exact_mod_cast hN
  have hpy : pyRange (SubdomainScanner.generate_subdomains domain
      (WordlistLoader.load fileContents)).length (N : Int)
      = .ok (groupStarts (SubdomainScanner.generate_subdomains domain
          (WordlistLoader.load fileContents)).length N) := by
    unfold pyRange groupStarts
    rw [if_neg hne, if_pos hpos, Int.toNat_natCast]
  simp only [ScannerApp.run, hempty, Bool.false_eq_true, if_false, hpy,
    Int.toNat_natCast, if_pos hk]

/-- Witness for C2 at a concrete interrupted two-candidate run. -/
theorem claim_C2_witness :
    ScannerApp.run "example.com" (.ok ["www", "mail"]) (50 : Int)
        (some "out.txt") true (fun _ => .success ["1.2.3.4"]) (fun _ => 0)
        (fun _ b => b) (some 1)
      = { aborted := false, interrupted := true, loggedError := none,
          finalState := some (scanLoop (fun _ => .success ["1.2.3.4"])
            (fun _ => 0)
            ((completionOrder (SubdomainScanner.generate_subdomains "example.com"
              (WordlistLoader.load (.ok ["www", "mail"]))) 50
              (fun _ b => b)).take 1) initState),
          outputFile := none } :=
  claim_C2 "example.com" (.ok ["www", "mail"]) 50 (some "out.txt") true
    (fun _ => .success ["1.2.3.4"]) (fun _ => 0) (fun _ b => b) 1
    (by decide) (by decide) (by decide)

end DomainHunter
